import Mathlib

/-!
Shallow embedding of the cloudnet-api-client core in Lean 4.

The embedding follows the Python sources:
- `cloudnet_api_client/containers.py` (data model),
- `cloudnet_api_client/client.py` (date normalizer, entity mapper, filter engine),
- `cloudnet_api_client/dl.py` (download manager).

Python strings are modelled as Lean `String`; dicts appearing in wire
records as association lists; `None` and falsy values (empty string,
empty set) are modelled explicitly where the source tests truthiness.
Fallible code (Python exceptions) is modelled with `Except String`.
-/

/-! ## Data model (`containers.py`) -/

inductive PRODUCT_TYPE where
  | instrument | geophysical | evaluation
  deriving DecidableEq, Repr

structure Product where
  id : String
  human_readable_name : String
  type : PRODUCT_TYPE
  experimental : Bool
  deriving DecidableEq, Repr

structure Instrument where
  instrument_id : String
  model : String
  type : String
  name : String
  uuid : String
  pid : String
  owners : List String
  serial_number : Option String
  deriving DecidableEq, Repr

inductive RawStatus where
  | created | uploaded | processed | invalid
  deriving DecidableEq, Repr

/-- Shared base fields of `Metadata` (`containers.py`). -/
structure MetaBase where
  uuid : String
  checksum : String
  size : Int
  filename : String
  measurement_date : String
  download_url : String
  created_at : String
  updated_at : String
  deriving DecidableEq, Repr

/-- `Metadata` with its two concrete variants `RawMetadata` (status,
instrument, optional tags) and `ProductMetadata` (product), modelled as a
sum so the variant tests (`isinstance(m, RawMetadata)`) are pattern
matches. -/
inductive Metadata where
  | raw (base : MetaBase) (status : RawStatus) (instrument : Instrument)
      (tags : Option (List String))
  | product (base : MetaBase) (product : Product)
  deriving DecidableEq, Repr

def Metadata.base : Metadata → MetaBase
  | .raw b _ _ _ => b
  | .product b _ => b

def Metadata.filename (m : Metadata) : String := m.base.filename

def Metadata.checksum (m : Metadata) : String := m.base.checksum

def Metadata.download_url (m : Metadata) : String := m.base.download_url

/-- `isinstance(m, RawMetadata)`. -/
def Metadata.isRaw : Metadata → Bool
  | .raw _ _ _ _ => true
  | .product _ _ => false

/-! ## Key translation (`client.py`, `_to_snake`) -/

/-- One step of `re.sub(r"(?<!^)(?=[A-Z])", "_", name)` past the first
character: at every position holding an ASCII uppercase letter an
underscore is inserted before it. -/
def subSnake : List Char → List Char
  | [] => []
  | c :: cs => (if c.isUpper then ['_', c] else [c]) ++ subSnake cs

/-- `_to_snake(name)`: `re.sub(r"(?<!^)(?=[A-Z])", "_", name).lower()`.
The lookbehind `(?<!^)` exempts position 0, so the first character never
receives a separator; `.lower()` then lower-cases everything. -/
def to_snake (s : String) : String :=
  match s.toList with
  | [] => ""
  | c :: cs => ⟨(c :: subSnake cs).map Char.toLower⟩

/-! ## Metadata filter engine (`client.py`, `APIClient.filter`)

`re.search(pattern, filename, re.I)` belongs to Python's regex engine, an
external collaborator; it is abstracted as the `search` parameter.  The
source guards every criterion with Python truthiness (`if include_pattern:`),
so `None`, the empty string, and the empty set all disable a criterion. -/

/-- `include_tag_subset.issubset(m.tags)` (tag sets modelled as lists). -/
def issubset (sub tags : List String) : Bool := sub.all (fun x => tags.contains x)

/-- `isinstance(m, RawMetadata) and m.tags and p(m.tags)`: product
entities and raw entities with `None` or empty tags fail the test. -/
def rawTagTest (p : List String → Bool) : Metadata → Bool
  | .raw _ _ _ (some tags) => !tags.isEmpty && p tags
  | _ => false

/-- One string criterion of `APIClient.filter`: `if crit: meta = [m for m
in meta if keep(crit, m)]` — `None` and `""` are falsy and leave `meta`
untouched. -/
def applyStrCriterion (crit : Option String) (keep : String → Metadata → Bool)
    (meta : List Metadata) : List Metadata :=
  match crit with
  | some p => if p == "" then meta else meta.filter (keep p)
  | Option.none => meta

/-- One tag-set criterion of `APIClient.filter`: `None` and the empty set
are falsy and leave `meta` untouched. -/
def applyTagCriterion (crit : Option (List String))
    (keep : List String → Metadata → Bool) (meta : List Metadata) : List Metadata :=
  match crit with
  | some ts => if ts.isEmpty then meta else meta.filter (keep ts)
  | Option.none => meta

/-- `APIClient.filter`: six criteria applied in source order, each one a
list comprehension narrowing `meta`, each guarded by truthiness. -/
def APIClient.filter (search : String → String → Bool) (meta : List Metadata)
    (include_pattern exclude_pattern fnamePre fnameSuf : Option String)
    (include_tag_subset exclude_tag_subset : Option (List String)) :
    List Metadata :=
  let meta := applyStrCriterion include_pattern
    (fun p m => search p m.filename) meta
  let meta := applyStrCriterion exclude_pattern
    (fun p m => !search p m.filename) meta
  let meta := applyStrCriterion fnamePre
    (fun p m => m.filename.startsWith p) meta
  let meta := applyStrCriterion fnameSuf
    (fun p m => m.filename.endsWith p) meta
  let meta := applyTagCriterion include_tag_subset
    (fun ts => rawTagTest (fun tags => issubset ts tags)) meta
  let meta := applyTagCriterion exclude_tag_subset
    (fun ts => rawTagTest (fun tags => !issubset ts tags)) meta
  meta

/-! ## Date normalizer (`client.py`, `APIClient._mangle_dates` and
`APIClient._parse_date`) -/

/-- Python dates are year/month/day triples (`datetime.date`). -/
structure PyDate where
  year : Nat
  month : Nat
  day : Nat
  deriving DecidableEq, Repr

/-- `DateParam = str | datetime.date | None`. -/
inductive DateParam where
  | none
  | str (s : String)
  | date (d : PyDate)
  deriving DecidableEq, Repr

/-- Python truthiness of a `DateParam`: `None` and `""` are falsy. -/
def DateParam.truthy : DateParam → Bool
  | .none => false
  | .str s => !(s == "")
  | .date _ => true

/-- Gregorian leap-year rule used by `calendar` and `datetime`. -/
def isLeap (y : Nat) : Bool := y % 4 == 0 && (y % 100 != 0 || y % 400 == 0)

/-- `calendar.monthrange(y, m)[1]`: the number of days of month `m` in
year `y` (for `1 ≤ m ≤ 12`). -/
def monthLength (y m : Nat) : Nat :=
  if m == 2 then (if isLeap y then 29 else 28)
  else if m == 4 || m == 6 || m == 9 || m == 11 then 30
  else 31

def digitVal (c : Char) : Nat := c.toNat - '0'.toNat

/-- `re.fullmatch(r"\d{4}-\d{2}-\d{2}", s)` (on the character list). -/
def listMatchYMD : List Char → Bool
  | [a, b, c, d, '-', e, f, '-', g, h] =>
    a.isDigit && b.isDigit && c.isDigit && d.isDigit &&
    e.isDigit && f.isDigit && g.isDigit && h.isDigit
  | _ => false

/-- `re.fullmatch(r"\d{4}-\d{2}", s)`, returning the year and month
values on a match. -/
def listMatchYM : List Char → Option (Nat × Nat)
  | [a, b, c, d, '-', e, f] =>
    if a.isDigit && b.isDigit && c.isDigit && d.isDigit && e.isDigit && f.isDigit then
      some (((digitVal a * 10 + digitVal b) * 10 + digitVal c) * 10 + digitVal d,
            digitVal e * 10 + digitVal f)
    else Option.none
  | _ => Option.none

/-- `re.fullmatch(r"\d{4}", s)` together with `int(s)`. -/
def listMatchY : List Char → Option Nat
  | [a, b, c, d] =>
    if a.isDigit && b.isDigit && c.isDigit && d.isDigit then
      some (((digitVal a * 10 + digitVal b) * 10 + digitVal c) * 10 + digitVal d)
    else Option.none
  | _ => Option.none

/-- `str.split(sep)` for a one-character separator, on character lists
(e.g. `"a-b".split("-") == ["a", "b"]`, `"".split("-") == [""]`). -/
def splitSep (sep : Char) : List Char → List (List Char)
  | [] => [[]]
  | c :: cs =>
    if c = sep then [] :: splitSep sep cs
    else
      match splitSep sep cs with
      | g :: gs => (c :: g) :: gs
      | [] => [[c]]

/-- CPython `_strptime`: `%Y` consumes exactly four digits. -/
def parse4Y (l : List Char) : Option Nat := listMatchY l

/-- CPython `_strptime`: `%m` is `1[0-2]|0[1-9]|[1-9]` and `%d` is
`3[01]|[12]\d|0[1-9]|[1-9]`, i.e. one or two digits with value between 1
and the field's ceiling. -/
def parseFlex (l : List Char) (hi : Nat) : Option Nat :=
  match l with
  | [a] => if a.isDigit && 1 ≤ digitVal a then some (digitVal a) else Option.none
  | [a, b] =>
    if a.isDigit && b.isDigit then
      let v := digitVal a * 10 + digitVal b
      if 1 ≤ v && v ≤ hi then some v else Option.none
    else Option.none
  | _ => Option.none

/-- `datetime.datetime.strptime(s, "%Y-%m-%d").date()`: the format match
(which must consume the whole string), then `datetime.date`'s range
validation (year ≥ 1; day at most the month's length).  `None` on the
`ValueError` paths. -/
def strptimeYMD (s : String) : Option PyDate :=
  match splitSep '-' s.toList with
  | [ys, ms, ds] =>
    match parse4Y ys, parseFlex ms 12, parseFlex ds 31 with
    | some y, some m, some d =>
      if 1 ≤ y && d ≤ monthLength y m then some ⟨y, m, d⟩ else Option.none
    | _, _, _ => Option.none
  | _ => Option.none

/-- `APIClient._parse_date`: `None` and `""` are rejected up front (`if
not date:`), a `datetime.date` passes through, and a string goes through
`strptime("%Y-%m-%d")` with `ValueError` mapped to the invalid-format
error. -/
def APIClient.parse_date : DateParam → Except String PyDate
  | .none => .error "Date parameter is required"
  | .date d => .ok d
  | .str s =>
    if s == "" then .error "Date parameter is required"
    else
      match strptimeYMD s with
      | some d => .ok d
      | Option.none => .error ("Invalid date format: " ++ s)

/-- The query parameters emitted by the date normalizer: at most one of
`date` / (`dateFrom`, `dateTo`). -/
structure DateParams where
  date : Option PyDate
  dateFrom : Option PyDate
  dateTo : Option PyDate
  deriving DecidableEq, Repr

deriving instance DecidableEq for Except

/-- `APIClient._mangle_dates`: string dates are dispatched on the three
full-match regexes in source order (`\d{4}-\d{2}-\d{2}`, `\d{4}-\d{2}`,
`\d{4}`), a `datetime.date` is passed through as `date`, and only when
`date` is `None` are `date_from`/`date_to` consulted (each guarded by
truthiness, each parsed by `_parse_date`).  Uncaught `ValueError`s
(`strptime("%Y-%m")` on month 0 or 13–99, `datetime.date` on year 0) are
`.error` results. -/
def APIClient.mangle_dates (date date_from date_to : DateParam) :
    Except String DateParams :=
  match date with
  | .str s =>
    if listMatchYMD s.toList then
      match APIClient.parse_date (.str s) with
      | .ok d => .ok ⟨some d, Option.none, Option.none⟩
      | .error e => .error e
    else
      match listMatchYM s.toList with
      | some (y, m) =>
        if 1 ≤ y && 1 ≤ m && m ≤ 12 then
          .ok ⟨Option.none, some ⟨y, m, 1⟩, some ⟨y, m, monthLength y m⟩⟩
        else .error "ValueError"
      | Option.none =>
        match listMatchY s.toList with
        | some y =>
          if 1 ≤ y then .ok ⟨Option.none, some ⟨y, 1, 1⟩, some ⟨y, 12, 31⟩⟩
          else .error "ValueError"
        | Option.none => .error "Invalid date format"
  | .date d => .ok ⟨some d, Option.none, Option.none⟩
  | .none => do
    let pf ← if date_from.truthy then (APIClient.parse_date date_from).map some
             else .ok Option.none
    let pt ← if date_to.truthy then (APIClient.parse_date date_to).map some
             else .ok Option.none
    .ok ⟨Option.none, pf, pt⟩

/-! ## Download manager (`dl.py`)

`utils.md5sum` / `utils.sha256sum` live in `cloudnet_api_client/utils.py`,
outside the core sources; they are abstracted as hash parameters over an
arbitrary content type.  The file system is a partial map from path names
to contents; the skip checks in `_download_files` all run before the first
suspension point (`asyncio.gather`), so they all observe this one map. -/

/-- `output_path / Path(meta.download_url.split("/")[-1])`, keeping only
the name relative to the output directory. -/
def destinationName (m : Metadata) : String :=
  ⟨(splitSep '/' m.download_url.toList).getLastD []⟩

/-- `_file_checksum_matches(meta, destination)`: `utils.md5sum` for
`RawMetadata`, `utils.sha256sum` otherwise, compared with
`meta.checksum`. -/
def file_checksum_matches {β : Type} (md5sum sha256sum : β → String)
    (m : Metadata) (content : β) : Bool :=
  (match m with
   | .raw _ _ _ _ => md5sum
   | .product _ _ => sha256sum) content == m.checksum

/-- The skip test in `_download_files`:
`destination.exists() and _file_checksum_matches(meta, destination)`. -/
def shouldSkip {β : Type} (md5sum sha256sum : β → String)
    (fs : String → Option β) (m : Metadata) : Bool :=
  match fs (destinationName m) with
  | some content => file_checksum_matches md5sum sha256sum m content
  | Option.none => false

/-- The entities for which `_download_files` creates a transfer task (and
hence issues a network request): exactly the ones the skip test rejects,
in input order. -/
def downloadTasks {β : Type} (md5sum sha256sum : β → String)
    (fs : String → Option β) (metadata : List Metadata) : List Metadata :=
  metadata.filter (fun m => !shouldSkip md5sum sha256sum fs m)

/-- Observable completion of `download`/`_download_files`: every entity
not skipped is fetched from its `download_url`; `asyncio.gather` without
`return_exceptions` re-raises the first transfer failure out of
`asyncio.run`, and on success `download` returns `None`.  The error
payload is erased (`Except Unit Unit`) because which failing task's
exception is re-raised depends on completion order. -/
def downloadResult {β : Type} (md5sum sha256sum : β → String)
    (fs : String → Option β) (fetchFails : String → Bool)
    (metadata : List Metadata) : Except Unit Unit :=
  if (downloadTasks md5sum sha256sum fs metadata).any
      (fun m => fetchFails m.download_url)
  then .error () else .ok ()

/-! ## Entity mapper for raw records (`client.py`,
`_build_raw_meta_objects` and `_construct_instrument`)

Wire records are JSON-like objects; dataclass construction does not check
value types, so entity fields built from a wire record hold `WireValue`s. -/

inductive WireValue where
  | str (s : String)
  | num (n : Int)
  | arr (xs : List WireValue)
  | obj (fields : List (String × WireValue))
  | null

/-- `obj[k]` on a Python dict (keys are unique): `some` the value, or
`None` standing for `KeyError`. -/
def lookupKey (fields : List (String × WireValue)) (k : String) : Option WireValue :=
  match fields with
  | [] => Option.none
  | (k₂, v) :: rest => if k₂ == k then some v else lookupKey rest k

/-- The kwargs comprehension
`{_to_snake(k): v for k, v in obj.items() if _to_snake(k) in field_names}`
restricted to one field name: when several wire keys snake-case to the
same field, the dict comprehension keeps the last. -/
def kwargLookup (obj : List (String × WireValue)) (fname : String) : Option WireValue :=
  match obj with
  | [] => Option.none
  | (k, v) :: rest =>
    match kwargLookup rest fname with
    | some w => some w
    | Option.none => if to_snake k == fname then some v else Option.none

/-- An `Instrument` as built from a wire record (field values untyped,
as Python dataclasses do not validate annotations). -/
structure InstrumentW where
  id : WireValue
  model : WireValue
  type : WireValue
  uuid : WireValue
  pid : WireValue
  owners : WireValue
  serial_number : WireValue
  name : WireValue

/-- `_construct_instrument(obj)`: indexes `obj["instrumentInfo"]` and its
eight sub-keys.  A missing key raises `KeyError` and indexing a non-dict
raises `TypeError`; both abort with `.error`. -/
def construct_instrument (obj : List (String × WireValue)) :
    Except String InstrumentW :=
  match lookupKey obj "instrumentInfo" with
  | Option.none => .error "KeyError: instrumentInfo"
  | some (.obj info) =>
    match lookupKey info "instrumentId", lookupKey info "model",
          lookupKey info "type", lookupKey info "uuid",
          lookupKey info "pid", lookupKey info "owners",
          lookupKey info "serialNumber", lookupKey info "name" with
    | some i, some mo, some ty, some u, some p, some ow, some sn, some na =>
      .ok ⟨i, mo, ty, u, p, ow, sn, na⟩
    | _, _, _, _, _, _, _, _ => .error "KeyError: instrumentInfo sub-key"
  | some _ => .error "TypeError: instrumentInfo is not subscriptable by key"

/-- A `RawMetadata` as built from a wire record. -/
structure RawMetadataW where
  uuid : WireValue
  checksum : WireValue
  size : WireValue
  filename : WireValue
  measurement_date : WireValue
  download_url : WireValue
  created_at : WireValue
  updated_at : WireValue
  status : WireValue
  tags : WireValue
  instrument : InstrumentW

/-- One element of the `_build_raw_meta_objects` comprehension:
`RawMetadata(**kwargs, instrument=_construct_instrument(obj))`.  The
nested instrument is built first (Python evaluates the call's arguments
before the dataclass constructor), then the dataclass call fails with
`TypeError` on any missing required field. -/
def build_raw_meta (obj : List (String × WireValue)) :
    Except String RawMetadataW := do
  let instrument ← construct_instrument obj
  let req (fname : String) : Except String WireValue :=
    match kwargLookup obj fname with
    | some v => .ok v
    | Option.none => .error ("TypeError: missing required field " ++ fname)
  let uuid ← req "uuid"
  let checksum ← req "checksum"
  let size ← req "size"
  let filename ← req "filename"
  let measurement_date ← req "measurement_date"
  let download_url ← req "download_url"
  let created_at ← req "created_at"
  let updated_at ← req "updated_at"
  let status ← req "status"
  let tags ← req "tags"
  .ok ⟨uuid, checksum, size, filename, measurement_date, download_url,
       created_at, updated_at, status, tags, instrument⟩

/-- `_build_raw_meta_objects(res)`: the list comprehension maps records
in order; the first exception aborts the whole batch, yielding no list
at all. -/
def build_raw_meta_objects :
    List (List (String × WireValue)) → Except String (List RawMetadataW)
  | [] => .ok []
  | obj :: rest => do
    let r ← build_raw_meta obj
    let rs ← build_raw_meta_objects rest
    .ok (r :: rs)

/-- A record that lacks the nested `instrumentInfo` mapping or at least
one of its eight required sub-keys. -/
def lacksInstrumentInfo (obj : List (String × WireValue)) : Bool :=
  match lookupKey obj "instrumentInfo" with
  | some (.obj info) =>
    ["instrumentId", "model", "type", "uuid", "pid", "owners",
     "serialNumber", "name"].any (fun k => (lookupKey info k).isNone)
  | some _ => true
  | Option.none => true

/-! ## Sample entities used by concrete witnesses -/

def sampleInstrument : Instrument :=
  ⟨"rpg-fmcw-94", "RPG-FMCW-94 DP", "cloud radar", "FMI RPG-FMCW-94",
   "instrument-uuid-1", "pid-1", ["FMI"], Option.none⟩

def sampleRawBase : MetaBase :=
  ⟨"uuid-raw-1", "md5-abc", 100, "20250801_000.nc", "2025-08-01",
   "https://cloudnet.fmi.fi/raw/20250801_000.nc", "t1", "t2"⟩

def sampleRaw : Metadata :=
  .raw sampleRawBase .uploaded sampleInstrument (some ["tag1"])

def sampleProductObj : Product :=
  ⟨"iwc", "Ice water content", .geophysical, false⟩

def sampleProductBase : MetaBase :=
  ⟨"uuid-prod-1", "sha-xyz", 200, "20250801_hyytiala_iwc.nc", "2025-08-01",
   "https://cloudnet.fmi.fi/product/20250801_hyytiala_iwc.nc", "t1", "t2"⟩

def sampleProduct : Metadata := .product sampleProductBase sampleProductObj

/-! ## Lemmas about the filter engine -/

theorem applyStrCriterion_sublist (crit : Option String)
    (keep : String → Metadata → Bool) (meta : List Metadata) :
    (applyStrCriterion crit keep meta).Sublist meta := by
  cases crit with
  | none => exact List.Sublist.refl meta
  | some p =>
    show (if p == "" then meta else meta.filter (keep p)).Sublist meta
    split
    · exact List.Sublist.refl meta
    · exact List.filter_sublist meta

theorem applyTagCriterion_sublist (crit : Option (List String))
    (keep : List String → Metadata → Bool) (meta : List Metadata) :
    (applyTagCriterion crit keep meta).Sublist meta := by
  cases crit with
  | none => exact List.Sublist.refl meta
  | some ts =>
    show (if ts.isEmpty then meta else meta.filter (keep ts)).Sublist meta
    split
    · exact List.Sublist.refl meta
    · exact List.filter_sublist meta

theorem applyStrCriterion_comm (c₁ : Option String) (k₁ : String → Metadata → Bool)
    (c₂ : Option String) (k₂ : String → Metadata → Bool) (meta : List Metadata) :
    applyStrCriterion c₁ k₁ (applyStrCriterion c₂ k₂ meta) =
      applyStrCriterion c₂ k₂ (applyStrCriterion c₁ k₁ meta) := by
  cases c₁ with
  | none => cases c₂ <;> rfl
  | some p =>
    cases c₂ with
    | none => rfl
    | some q =>
      show applyStrCriterion (some p) k₁ (if q == "" then meta else meta.filter (k₂ q)) =
        applyStrCriterion (some q) k₂ (if p == "" then meta else meta.filter (k₁ p))
      by_cases hp : p == "" <;> by_cases hq : q == "" <;>
        simp only [applyStrCriterion, hp, hq, if_true, if_false]
      exact List.filter_comm _ _ _

/-- C10: for every input collection and every combination of criteria,
`APIClient.filter` returns an order-preserving subsequence of its input
(no entity is added, duplicated, or reordered), and with no criterion
supplied it returns the input unchanged. -/
theorem filter_sublist_of_input (search : String → String → Bool)
    (meta : List Metadata)
    (include_pattern exclude_pattern fnamePre fnameSuf : Option String)
    (include_tag_subset exclude_tag_subset : Option (List String)) :
    (APIClient.filter search meta include_pattern exclude_pattern fnamePre
        fnameSuf include_tag_subset exclude_tag_subset).Sublist meta ∧
      APIClient.filter search meta Option.none Option.none Option.none
        Option.none Option.none Option.none = meta := by
  refine ⟨?_, rfl⟩
  exact (applyTagCriterion_sublist _ _ _).trans
    ((applyTagCriterion_sublist _ _ _).trans
      ((applyStrCriterion_sublist _ _ _).trans
        ((applyStrCriterion_sublist _ _ _).trans
          ((applyStrCriterion_sublist _ _ _).trans
            (applyStrCriterion_sublist _ _ _)))))

/-- C9: applying the `filename_prefix` filter and then the
`filename_suffix` filter yields the same result as the opposite order,
and the same as one `filter` call carrying both criteria. -/
theorem filter_prefix_suffix_order (search : String → String → Bool)
    (meta : List Metadata) (pre suf : Option String) :
    APIClient.filter search
        (APIClient.filter search meta Option.none Option.none pre Option.none
          Option.none Option.none)
        Option.none Option.none Option.none suf Option.none Option.none =
      APIClient.filter search
        (APIClient.filter search meta Option.none Option.none Option.none suf
          Option.none Option.none)
        Option.none Option.none pre Option.none Option.none Option.none ∧
    APIClient.filter search
        (APIClient.filter search meta Option.none Option.none pre Option.none
          Option.none Option.none)
        Option.none Option.none Option.none suf Option.none Option.none =
      APIClient.filter search meta Option.none Option.none pre suf Option.none
        Option.none := by
  exact ⟨applyStrCriterion_comm suf (fun p m => m.filename.endsWith p)
    pre (fun p m => m.filename.startsWith p) meta, rfl⟩

/-- C4 counterexample: with `include_tag_subset = ∅` the filter is a
complete no-op — a product entity passes through — whereas the claim
demands exactly the tagged raw entities (here: the empty collection). -/
theorem filter_empty_tag_subset_counterexample :
    APIClient.filter (fun _ _ => false) [sampleProduct] Option.none Option.none
        Option.none Option.none (some []) Option.none = [sampleProduct] ∧
      [sampleProduct] ≠ ([] : List Metadata) := by
  exact ⟨rfl, by decide⟩

/-- C4 amended: `include_tag_subset = ∅` is falsy in Python (`if
include_tag_subset:`), so the empty required subset disables the
criterion entirely and the input collection is returned unchanged. -/
theorem filter_empty_tag_subset_noop (search : String → String → Bool)
    (meta : List Metadata) :
    APIClient.filter search meta Option.none Option.none Option.none
      Option.none (some []) Option.none = meta := rfl

/-- C5 counterexample: the substitution inserts a separator before every
internal uppercase letter, not one per uppercase run: `myID` maps to
`my_i_d`, not to the claimed `my_id`. -/
theorem to_snake_uppercase_run_counterexample :
    to_snake "myID" = "my_i_d" ∧ to_snake "myID" ≠ "my_id" := by decide

theorem subSnake_map_toLower (cs : List Char) :
    (subSnake cs).map Char.toLower =
      cs.flatMap (fun d => if d.isUpper then ['_', d.toLower] else [d.toLower]) := by
  induction cs with
  | nil => rfl
  | cons d rest ih =>
    by_cases hd : d.isUpper <;>
      simp [subSnake, hd, ih, show '_'.toLower = '_' from rfl]

/-- C5 amended: `_to_snake` lower-cases the first character unchanged and
expands every later character individually, prepending one underscore to
each internal uppercase letter — so a run of k consecutive uppercase
letters receives k separators (`instrumentPid → instrument_pid`, but
`myID → my_i_d`). -/
theorem to_snake_separator_per_letter (c : Char) (cs : List Char) :
    to_snake ⟨c :: cs⟩ =
      ⟨c.toLower :: cs.flatMap
        (fun d => if d.isUpper then ['_', d.toLower] else [d.toLower])⟩ := by
  show String.mk ((c :: subSnake cs).map Char.toLower) = _
  rw [List.map_cons, subSnake_map_toLower]

/-! ## Lemmas about the raw-record mapper -/

theorem construct_instrument_error (obj : List (String × WireValue))
    (hbad : lacksInstrumentInfo obj = true) :
    ∃ e, construct_instrument obj = Except.error e := by
  unfold lacksInstrumentInfo at hbad
  unfold construct_instrument
  cases hinfo : lookupKey obj "instrumentInfo" with
  | none => exact ⟨_, rfl⟩
  | some v =>
    rw [hinfo] at hbad
    cases v with
    | str s => exact ⟨_, rfl⟩
    | num n => exact ⟨_, rfl⟩
    | arr xs => exact ⟨_, rfl⟩
    | null => exact ⟨_, rfl⟩
    | obj info =>
      simp only [List.any_eq_true, Option.isNone_iff_eq_none] at hbad
      obtain ⟨k, hk, hnone⟩ := hbad
      simp only [List.mem_cons, List.not_mem_nil, or_false] at hk
      dsimp only
      split
      · rcases hk with rfl | rfl | rfl | rfl | rfl | rfl | rfl | rfl <;> simp_all
      · exact ⟨_, rfl⟩

theorem build_raw_meta_error_of_lacks (obj : List (String × WireValue))
    (hbad : lacksInstrumentInfo obj = true) :
    ∃ e, build_raw_meta obj = Except.error e := by
  obtain ⟨e, he⟩ := construct_instrument_error obj hbad
  exact ⟨e, by unfold build_raw_meta; rw [he]; rfl⟩

theorem build_raw_meta_objects_error_of_mem
    (res : List (List (String × WireValue))) (obj : List (String × WireValue))
    (hmem : obj ∈ res) (h : ∃ e, build_raw_meta obj = Except.error e) :
    ∃ e, build_raw_meta_objects res = Except.error e := by
  induction res with
  | nil => cases hmem
  | cons hd tl ih =>
    rcases List.mem_cons.mp hmem with rfl | hmem₂
    · obtain ⟨e, he⟩ := h
      exact ⟨e, by unfold build_raw_meta_objects; rw [he]; rfl⟩
    · cases hb : build_raw_meta hd with
      | error e => exact ⟨e, by unfold build_raw_meta_objects; rw [hb]; rfl⟩
      | ok r =>
        obtain ⟨e, he⟩ := ih hmem₂
        refine ⟨e, ?_⟩
        unfold build_raw_meta_objects
        rw [hb]
        show (build_raw_meta_objects tl >>= fun rs => Except.ok (r :: rs)) =
          Except.error e
        rw [he]
        rfl

/-- C6: if any wire record in the batch lacks the nested `instrumentInfo`
object or one of its eight required sub-keys (`instrumentId`, `model`,
`type`, `uuid`, `pid`, `owners`, `serialNumber`, `name`), then
`_build_raw_meta_objects` fails for the whole batch: the result is an
error, never a partial list of `RawMetadata` entities. -/
theorem raw_mapping_fail_fast (res : List (List (String × WireValue)))
    (obj : List (String × WireValue)) (hmem : obj ∈ res)
    (hbad : lacksInstrumentInfo obj = true) :
    ∃ e, build_raw_meta_objects res = Except.error e :=
  build_raw_meta_objects_error_of_mem res obj hmem
    (build_raw_meta_error_of_lacks obj hbad)

/-- Witness for C6: a one-record batch whose `instrumentInfo` is present
but empty (all eight sub-keys missing) makes the whole batch fail. -/
theorem raw_mapping_fail_fast_witness :
    ∃ e, build_raw_meta_objects [[("instrumentInfo", WireValue.obj [])]] =
      Except.error e :=
  raw_mapping_fail_fast _ _ (List.mem_singleton.mpr rfl) rfl

/-! ## Lemmas about the date normalizer -/

/-- A string that fully matches `\d{4}-\d{2}` (7 characters) cannot also
fully match `\d{4}-\d{2}-\d{2}` (10 characters). -/
theorem listMatchYMD_false_of_YM (l : List Char) (ym : Nat × Nat)
    (h : listMatchYM l = some ym) : listMatchYMD l = false := by
  rw [listMatchYM.eq_def] at h
  split at h
  · rfl
  · simp at h

/-- C3: for every date string fully matching `YYYY-MM` with a valid year
and month, the normalizer emits `dateFrom` = first day of that month and
`dateTo` = the month's actual last calendar day (28–31, February
depending on leap year), and emits no single `date` parameter. -/
theorem mangle_dates_year_month (s : String) (y m : Nat)
    (h : listMatchYM s.toList = some (y, m)) (hy : 1 ≤ y) (hm1 : 1 ≤ m)
    (hm2 : m ≤ 12) (date_from date_to : DateParam) :
    APIClient.mangle_dates (.str s) date_from date_to =
      .ok ⟨Option.none, some ⟨y, m, 1⟩, some ⟨y, m, monthLength y m⟩⟩ ∧
      (28 ≤ monthLength y m ∧ monthLength y m ≤ 31) ∧
      (m = 2 → monthLength y m = if isLeap y then 29 else 28) := by
  refine ⟨?_, ?_, ?_⟩
  · unfold APIClient.mangle_dates
    dsimp only
    rw [listMatchYMD_false_of_YM s.toList (y, m) h]
    simp only [Bool.false_eq_true, if_false, h]
    rw [if_pos]
    simp [hy, hm1, hm2]
  · unfold monthLength
    split_ifs <;> omega
  · intro hm
    subst hm
    rfl

/-- Witness for C3: `"2024-02"` (a leap year) yields the inclusive range
2024-02-01 … 2024-02-29. -/
theorem mangle_dates_year_month_witness :
    APIClient.mangle_dates (.str "2024-02") .none .none =
      .ok ⟨Option.none, some ⟨2024, 2, 1⟩, some ⟨2024, 2, 29⟩⟩ :=
  ((mangle_dates_year_month "2024-02" 2024 2 (by decide) (by decide) (by decide)
    (by decide) .none .none).1).trans (by decide)

/-- C7 counterexample: with no `date` supplied, `date_from = "2020-1-5"`
does NOT match the exact `YYYY-MM-DD` shape yet is accepted (strptime's
`%m`/`%d` take one or two digits), and `date_from = ""` does not parse
yet raises no error — it is silently omitted. -/
theorem from_to_exact_format_counterexample :
    APIClient.mangle_dates .none (.str "2020-1-5") .none =
      .ok ⟨Option.none, some ⟨2020, 1, 5⟩, Option.none⟩ ∧
    APIClient.mangle_dates .none (.str "") .none =
      .ok ⟨Option.none, Option.none, Option.none⟩ := by decide

/-- C7 amended: when no `date` is supplied, each non-empty `date_from` /
`date_to` string is parsed by `strptime("%Y-%m-%d")` — four-digit year,
one- or two-digit month and day, validated against the calendar — a
non-empty bound that fails this parse is an invalid-parameter failure, a
parsed bound is emitted as `dateFrom`/`dateTo`, and an unset bound
(`None` or the empty string) is omitted without error. -/
theorem mangle_dates_from_to_flexible (s : String) (hs : s ≠ "") :
    (APIClient.mangle_dates .none (.str s) .none =
      match strptimeYMD s with
      | some d => .ok ⟨Option.none, some d, Option.none⟩
      | Option.none => .error ("Invalid date format: " ++ s)) ∧
    (APIClient.mangle_dates .none .none (.str s) =
      match strptimeYMD s with
      | some d => .ok ⟨Option.none, Option.none, some d⟩
      | Option.none => .error ("Invalid date format: " ++ s)) ∧
    APIClient.mangle_dates .none (.str "") (.str "") =
      .ok ⟨Option.none, Option.none, Option.none⟩ := by
  have hs' : (s == "") = false := by simp [hs]
  refine ⟨?_, ?_, rfl⟩ <;>
    · unfold APIClient.mangle_dates APIClient.parse_date
      cases hp : strptimeYMD s <;>
        simp [DateParam.truthy, hs', hp, Except.map] <;> rfl

/-- Witness for C7: the non-`YYYY-MM-DD`-shaped bound `"2020-1-5"` is
parsed and emitted as `dateFrom`. -/
theorem mangle_dates_from_to_flexible_witness :
    ("2020-1-5" : String) ≠ "" ∧
    APIClient.mangle_dates .none (.str "2020-1-5") .none =
      .ok ⟨Option.none, some ⟨2020, 1, 5⟩, Option.none⟩ :=
  ⟨by decide,
   ((mangle_dates_from_to_flexible "2020-1-5" (by decide)).1).trans (by decide)⟩

/-- C8: whenever `date` is supplied (a string or a date object), the
emitted parameters are exactly those computed from `date` alone — the
`date_from`/`date_to` pair is ignored. -/
theorem mangle_dates_date_precedence (dp date_from date_to : DateParam)
    (h : dp ≠ DateParam.none) :
    APIClient.mangle_dates dp date_from date_to =
      APIClient.mangle_dates dp DateParam.none DateParam.none := by
  cases dp with
  | none => exact absurd rfl h
  | str s => rfl
  | date d => rfl

/-- Witness for C8: a year-month `date` together with a well-formed
`date_from` and a malformed `date_to`; both are ignored. -/
theorem mangle_dates_date_precedence_witness :
    APIClient.mangle_dates (.str "2023-05") (.str "1999-01-01") (.str "junk") =
      APIClient.mangle_dates (.str "2023-05") DateParam.none DateParam.none :=
  mangle_dates_date_precedence _ _ _ (by decide)

/-- C1: an entity is excluded from the transfer tasks (no network
request) exactly when a file exists at its destination (final path
segment of `download_url`) whose checksum — computed with `md5sum` for a
raw entity and `sha256sum` for a product entity — equals the entity's
recorded checksum. -/
theorem download_skip_iff {β : Type} (md5sum sha256sum : β → String)
    (fs : String → Option β) (metadata : List Metadata) (m : Metadata)
    (hm : m ∈ metadata) :
    m ∉ downloadTasks md5sum sha256sum fs metadata ↔
      ∃ content, fs (destinationName m) = some content ∧
        (if m.isRaw then md5sum content else sha256sum content) = m.checksum := by
  unfold downloadTasks
  constructor
  · intro hnot
    have hskip : shouldSkip md5sum sha256sum fs m = true := by
      by_contra hns
      exact hnot (List.mem_filter.mpr ⟨hm, by simp [hns]⟩)
    unfold shouldSkip at hskip
    cases hc : fs (destinationName m) with
    | none => rw [hc] at hskip; simp at hskip
    | some content =>
      rw [hc] at hskip
      refine ⟨content, rfl, ?_⟩
      unfold file_checksum_matches at hskip
      cases m with
      | raw b st i t => simpa [Metadata.isRaw] using hskip
      | product b p => simpa [Metadata.isRaw] using hskip
  · rintro ⟨content, hc, hcs⟩ hmem
    have hskip : shouldSkip md5sum sha256sum fs m = true := by
      unfold shouldSkip
      rw [hc]
      unfold file_checksum_matches
      cases m with
      | raw b st i t => simpa [Metadata.isRaw] using hcs
      | product b p => simpa [Metadata.isRaw] using hcs
    have := (List.mem_filter.mp hmem).2
    simp [hskip] at this

/-- Witness for C1: a raw entity whose destination exists with a matching
MD5 checksum is skipped. -/
theorem download_skip_iff_witness :
    sampleRaw ∉ downloadTasks (fun (_ : Unit) => "md5-abc")
      (fun _ => "sha-other") (fun _ => some ()) [sampleRaw] :=
  (download_skip_iff _ _ _ _ _ (List.mem_singleton.mpr rfl)).mpr
    ⟨(), rfl, by decide⟩

/-- C2, evidence for the code bug: with a single entity whose transfer
fails, `download` propagates the exception (the model's `.error ()`)
instead of completing and returning a per-entity failure list alongside
the materialized paths — its Python return type is `None` in all cases. -/
theorem download_failure_raises :
    downloadResult (fun (_ : Unit) => "md5-abc") (fun _ => "sha-other")
      (fun _ => Option.none) (fun _ => true) [sampleRaw] = Except.error () := by
  rfl
